import Mathlib

/-!
Verification of the accessibility-snapshot module
(screenpipe-vision, accessibility_snapshot.rs).

The Rust source is shallowly embedded below.  Rust strings are modelled as
Lean strings (operated on through their character lists); Rust f64 values
are modelled by the type F64 below, which keeps finite values as exact
rationals (rounding to the nearest double, overflow to infinity and
underflow to zero in Rust float parsing are abstracted away; none of the
verified properties depends on them).  The opaque native providers reached
through FFI are modelled as function parameters.
-/

/-- Model of a Rust f64 value as produced by string parsing: a finite value
(kept exact as a rational), positive or negative infinity, or NaN. -/
inductive F64 where
  | finite (q : ℚ)
  | inf
  | negInf
  | nan
deriving DecidableEq, Repr

/-- Numeric value of a decimal digit character. -/
def digitVal (c : Char) : Nat := c.toNat - 48

/-- Split a character list into its longest prefix of decimal digits and the
rest (models the digit-consuming phase of Rust float parsing). -/
def takeDigits : List Char → List Char × List Char
  | [] => ([], [])
  | c :: t =>
    if c.isDigit then
      let p := takeDigits t
      (c :: p.1, p.2)
    else ([], c :: t)

/-- Value of a digit string read in base 10. -/
def digitsToNat (ds : List Char) : Nat :=
  ds.foldl (fun a c => a * 10 + digitVal c) 0

/-- Parse the special float words inf, infinity and nan
(ASCII case-insensitively), as Rust f64 from_str does after the sign. -/
def parseSpecial (neg : Bool) (cs : List Char) : Option F64 :=
  let low := cs.map Char.toLower
  if low = "inf".toList ∨ low = "infinity".toList then
    some (if neg then F64.negInf else F64.inf)
  else if low = "nan".toList then
    some F64.nan
  else none

/-- Parse the exponent part of a float literal (after the e): an optional
sign followed by a nonempty digit string consuming the whole rest. -/
def parseExponent (cs : List Char) : Option Int :=
  match cs with
  | '+' :: t =>
    let p := takeDigits t
    if p.1.length = 0 ∨ p.2 ≠ [] then none else some (digitsToNat p.1 : Int)
  | '-' :: t =>
    let p := takeDigits t
    if p.1.length = 0 ∨ p.2 ≠ [] then none else some (-(digitsToNat p.1 : Int))
  | t =>
    let p := takeDigits t
    if p.1.length = 0 ∨ p.2 ≠ [] then none else some (digitsToNat p.1 : Int)

/-- Exact rational value of a decimal float literal with optional sign,
integer digits, fraction digits and a base-ten exponent: the value
sign(intDs.fracDs) times ten to the ex.  (Rust returns the double
nearest to this exact value; the rational is kept exact instead.) -/
def decimalValue (neg : Bool) (intDs fracDs : List Char) (ex : Int) : ℚ :=
  let n : Nat := digitsToNat intDs * 10 ^ fracDs.length + digitsToNat fracDs
  let num : Int := if neg then -(n : Int) else (n : Int)
  if 0 ≤ ex then mkRat (num * ((10 ^ ex.toNat : Nat) : Int)) (10 ^ fracDs.length)
  else mkRat num (10 ^ fracDs.length * 10 ^ (-ex).toNat)

/-- Parse a decimal float literal after the optional sign:
digits, an optional point with further digits (at least one digit in
total), and an optional exponent.  Mirrors the grammar of Rust
f64 from_str; the numeric value is kept exact as a rational. -/
def parseDecimal (neg : Bool) (cs : List Char) : Option F64 :=
  let p1 := takeDigits cs
  let p2 : List Char × List Char :=
    match p1.2 with
    | '.' :: t => takeDigits t
    | _ => ([], p1.2)
  if p1.1.length + p2.1.length = 0 then none
  else
    match p2.2 with
    | [] => some (F64.finite (decimalValue neg p1.1 p2.1 0))
    | e :: t =>
      if e = 'e' ∨ e = 'E' then
        match parseExponent t with
        | some ex => some (F64.finite (decimalValue neg p1.1 p2.1 ex))
        | none => none
      else none

/-- Model of Rust str::parse::<f64>() returning Option instead of Result:
an optional sign followed by either a special word or a decimal literal,
consuming the entire string.  (Any output means the Rust parse is Ok.) -/
def parseF64 (cs : List Char) : Option F64 :=
  match cs with
  | [] => none
  | '+' :: t => (parseSpecial false t).orElse (fun _ => parseDecimal false t)
  | '-' :: t => (parseSpecial true t).orElse (fun _ => parseDecimal true t)
  | t => (parseSpecial false t).orElse (fun _ => parseDecimal false t)

/-- Model of Rust str::split with separator comma: splits at every comma,
keeping empty pieces (the empty string yields one empty piece). -/
def splitOnComma : List Char → List (List Char)
  | [] => [[]]
  | c :: t =>
    if c = ',' then [] :: splitOnComma t
    else
      match splitOnComma t with
      | [] => [[c]]
      | g :: gs => (c :: g) :: gs

/-- Whether pat occurs at the start of hay (model of Rust str::starts_with,
used to build the substring search below). -/
def startsWithList : List Char → List Char → Bool
  | _, [] => true
  | [], _ :: _ => false
  | c :: cs, p :: ps => c == p && startsWithList cs ps

/-- Whether pat ends hay (model of Rust str::ends_with at character level). -/
def endsWithList (hay pat : List Char) : Bool :=
  startsWithList hay.reverse pat.reverse

/-- Whether pat occurs somewhere inside hay (model of Rust str::contains
with a string pattern). -/
def containsSubstring : List Char → List Char → Bool
  | [], pat => pat.isEmpty
  | c :: t, pat => startsWithList (c :: t) pat || containsSubstring t pat

/-- Model of Rust String::to_lowercase restricted to ASCII case mapping
(full Unicode case folding is abstracted; every string the verified
properties touch is ASCII). -/
def rustToLowercase (s : String) : List Char :=
  s.toList.map Char.toLower

/-- Model of the UIFrameElement struct decoded from the snapshot JSON.
Field names follow the Rust struct: id, e (element type), p (path),
d (depth, a u32 only stored, never computed with), f (frame),
a (attributes, a HashMap modelled as an association list with unique
keys), m (methods), c (children), app, focused.  The serde-skipped
selected_text_bounds field is always None after decoding and is never
read, so it is omitted. -/
inductive UIFrameElement where
  | mk
    (id : Option String)
    (e : String)
    (p : Option String)
    (d : Option Nat)
    (f : Option (List F64))
    (a : Option (List (String × String)))
    (m : Option (List String))
    (c : Option (List UIFrameElement))
    (app : Option String)
    (focused : Option Bool)

/-- Element type tag (Rust field e). -/
def UIFrameElement.e : UIFrameElement → String
  | .mk _ e _ _ _ _ _ _ _ _ => e

/-- Attribute map (Rust field a). -/
def UIFrameElement.a : UIFrameElement → Option (List (String × String))
  | .mk _ _ _ _ _ a _ _ _ _ => a

/-- Children (Rust field c). -/
def UIFrameElement.c : UIFrameElement → Option (List UIFrameElement)
  | .mk _ _ _ _ _ _ _ c _ _ => c

/-- Owning application name (Rust field app). -/
def UIFrameElement.app : UIFrameElement → Option String
  | .mk _ _ _ _ _ _ _ _ app _ => app

/-- Embedding of UIFrameElement::get_selected_text_bounds: look up the
AXSelectedTextBounds attribute, split its value on commas, keep the
tokens that parse as floats, and return the four values when exactly
four tokens parsed (the Rust code checks parts.len() == 4 and indexes
parts 0 to 3, which the four-element match mirrors). -/
def UIFrameElement.get_selected_text_bounds (el : UIFrameElement) :
    Option (F64 × F64 × F64 × F64) :=
  match el.a with
  | some attrs =>
    match List.lookup "AXSelectedTextBounds" attrs with
    | some bounds_str =>
      match (splitOnComma bounds_str.toList).filterMap parseF64 with
      | [x, y, w, h] => some (x, y, w, h)
      | _ => none
    | none => none
  | none => none

/-- Embedding of UIFrameElement::is_self_app: the owning application name
is present and its lowercase form contains the substring alvea. -/
def UIFrameElement.is_self_app (el : UIFrameElement) : Bool :=
  match el.app with
  | some app_name => containsSubstring (rustToLowercase app_name) ("alvea".toList)
  | none => false

/-- The fixed role-suffix list of is_input_element (Rust input_types). -/
def input_types : List String :=
  ["AXTextField", "AXTextArea", "AXButton", "AXCheckBox",
   "AXRadioButton", "AXSlider", "AXComboBox", "AXPopUpButton"]

/-- Embedding of is_input_element: the role ends with one of the eight
fixed suffixes. -/
def is_input_element (role : String) : Bool :=
  input_types.any (fun t => endsWithList role.toList t.toList)

mutual
/-- Embedding of collect_input_elements: push the element itself when its
type is input-capable, then recurse into the children in order. -/
def collect_input_elements : UIFrameElement → List UIFrameElement
  | .mk id e p d f a m c app focused =>
    (if is_input_element e then [UIFrameElement.mk id e p d f a m c app focused]
     else []) ++
    (match c with
     | none => []
     | some cs => collectChildrenInputs cs)

/-- The for-loop of collect_input_elements over a child list. -/
def collectChildrenInputs : List UIFrameElement → List UIFrameElement
  | [] => []
  | child :: rest => collect_input_elements child ++ collectChildrenInputs rest
end

/-- Embedding of LastSelectionContext (the commented-out fields of the
Rust struct are omitted, as in the source). -/
structure LastSelectionContext where
  app_element : UIFrameElement

/-- Embedding of UIFrameData, the decoded snapshot: a list of roots. -/
structure UIFrameData where
  e : List UIFrameElement

/-- Result of one pass of the root-scanning for-loop of a polling tick:
the current_app_is_self flag, the final value of the
LAST_SELECTION_CONTEXT cell, and the collected input elements. -/
structure TickScan where
  current_app_is_self : Bool
  last_context : Option LastSelectionContext
  input_elements : List UIFrameElement

/-- Embedding of the root loop of start_accessibility_polling: for each
root, a self root sets the flag and breaks; otherwise the context cell
is overwritten with this root and its input elements are collected. -/
def scanRoots (ctx : Option LastSelectionContext) :
    List UIFrameElement → TickScan
  | [] => ⟨false, ctx, []⟩
  | r :: rest =>
    if r.is_self_app then ⟨true, ctx, []⟩
    else
      let s := scanRoots (some ⟨r⟩) rest
      ⟨s.current_app_is_self, s.last_context,
        collect_input_elements r ++ s.input_elements⟩

/-- The overlay label built for index idx
(Rust format string overlay_ idx _selection). -/
def overlayLabel (idx : Nat) : String :=
  "overlay_" ++ Nat.repr idx ++ "_selection"

/-- Embedding of the overlay loop of a polling tick: enumerate the
collected input elements and record a labelled candidate for each one
whose attributes carry selected-text bounds. -/
def overlay_candidates (inputs : List UIFrameElement) :
    List (String × (F64 × F64 × F64 × F64)) :=
  inputs.enum.filterMap fun pr =>
    (pr.2.get_selected_text_bounds).map fun b => (overlayLabel pr.1, b)

/-- The mutable state a polling tick can touch: the
LAST_SELECTION_CONTEXT cell and the OVERLAY_WINDOW_LABELS set (which the
tick locks and reads but never mutates in this source). -/
structure LoopState where
  last_context : Option LastSelectionContext
  overlay_window_labels : List String

/-- Embedding of one iteration body of start_accessibility_polling,
given the decode result of the fetched snapshot (none models a
serde_json decode failure): on failure the tick changes nothing, on
success the context cell takes the value left by the root scan. -/
def stepTick (decoded : Option UIFrameData) (s : LoopState) : LoopState :=
  match decoded with
  | none => s
  | some snap => ⟨(scanRoots s.last_context snap.e).last_context,
                  s.overlay_window_labels⟩

/-- Environment of one iteration: the IS_POLLING value observed at the
top of the while loop, and the decode result of that iteration's
snapshot fetch. -/
structure TickEnv where
  polling_flag : Bool
  decoded : Option UIFrameData

/-- Embedding of the while loop of start_accessibility_polling over a
finite trace of iteration environments: each iteration first observes
the flag (false stops the loop), then runs the tick body.  Returns the
final state and the number of ticks executed. -/
def runPolling (s : LoopState) : List TickEnv → LoopState × Nat
  | [] => (s, 0)
  | env :: rest =>
    if env.polling_flag then
      let r := runPolling (stepTick env.decoded s) rest
      (r.1, r.2 + 1)
    else (s, 0)

/-- Model of the native hierarchy provider behind the FFI: the result of
get_accessibility_hierarchy (no filters) and of
get_accessibility_hierarchy_filtered for given optional filters.  A none
result models a null pointer; a returned string models the C string
(the lossy UTF-8 conversion is the identity here since byte-level
content is not modelled). -/
structure NativeHierarchyProvider where
  unfiltered : Option String
  filtered : Option String → Option String → Option String

/-- The structured payload returned when the native call yields null. -/
def hierarchyFailurePayload : String :=
  "\x7b\"error\": \"Failed to get accessibility hierarchy\"\x7d"

/-- The payload produced by unwrap_or_else when the blocking task fails
(in particular when CString::new(...).unwrap() panics inside it). -/
def taskFailurePayload : String :=
  "\x7b\"error\": \"Failed to execute task\"\x7d"

/-- Whether a Rust string contains a NUL byte, the condition under which
CString::new fails (U+0000 is the only character whose UTF-8 encoding
contains a zero byte). -/
def hasNulByte (s : String) : Bool :=
  s.toList.any (fun c => c.toNat == 0)

/-- Byte offset of the first NUL character, as reported by NulError
(positions of the preceding characters are counted in UTF-8 bytes). -/
def firstNulBytePos : List Char → Nat
  | [] => 0
  | c :: t => if c.toNat = 0 then 0 else c.utf8Size + firstNulBytePos t

/-- The Display text of the NulError returned by CString::new, as
propagated by map_err(|e| e.to_string()). -/
def cstringNulError (s : String) : String :=
  "nul byte found in provided data at position: " ++
    Nat.repr (firstNulBytePos s.toList)

/-- Turn a native snapshot result into the returned string: null becomes
the structured failure payload, anything else is passed through. -/
def payloadOfNative : Option String → String
  | none => hierarchyFailurePayload
  | some s => s

/-- Embedding of macos_accessibility::get_accessibility_snapshot.  The
four call shapes mirror the Rust match on the two optional filters.  A
filter containing a NUL byte makes CString::new(...).unwrap() panic
inside the spawn_blocking closure; tokio converts that panic into a
join error and unwrap_or_else maps it to the task-failure payload, so
in that case the provider is never consulted. -/
def get_accessibility_snapshot (native : NativeHierarchyProvider)
    (target_app target_window : Option String) : String :=
  match target_app, target_window with
  | some app, some window =>
    if hasNulByte app ∨ hasNulByte window then taskFailurePayload
    else payloadOfNative (native.filtered (some app) (some window))
  | some app, none =>
    if hasNulByte app then taskFailurePayload
    else payloadOfNative (native.filtered (some app) none)
  | none, some window =>
    if hasNulByte window then taskFailurePayload
    else payloadOfNative (native.filtered none (some window))
  | none, none => payloadOfNative native.unfiltered

/-- Embedding of the perform_typing_action command (macOS branch).  The
native provider is a parameter mapping the two argument strings to the
optional result string (none models a null pointer).  The second
component of the result is the trace of native invocations, so that
theorems can state when the provider is or is not called. -/
def perform_typing_action (native : String → String → Option String)
    (element_id text : String) :
    Except String String × List (String × String) :=
  if hasNulByte element_id then
    (Except.error (cstringNulError element_id), [])
  else if hasNulByte text then
    (Except.error (cstringNulError text), [])
  else
    match native element_id text with
    | none => (Except.error "Failed to perform typing action", [(element_id, text)])
    | some r => (Except.ok r, [(element_id, text)])

/-- Embedding of the perform_named_action command (macOS branch): null
native result is an error; a non-null result is inspected for the
substring success; presence gives Ok, absence returns the native text
as the error.  The second component is the native invocation trace. -/
def perform_named_action (native : String → String → Option String)
    (element_id action_name : String) :
    Except String Unit × List (String × String) :=
  if hasNulByte element_id then
    (Except.error (cstringNulError element_id), [])
  else if hasNulByte action_name then
    (Except.error (cstringNulError action_name), [])
  else
    match native element_id action_name with
    | none =>
      (Except.error "Failed to perform named action", [(element_id, action_name)])
    | some r =>
      (if containsSubstring r.toList ("success".toList) then Except.ok ()
       else Except.error r, [(element_id, action_name)])

/-- The bounds parse exactly as the specification sentence states it: the
attribute value must consist of exactly four comma-separated tokens that
all parse as floats, and any non-numeric token yields none (mapM instead
of filterMap).  This definition follows the claim wording, not the
source, and exists only to be compared with the implementation. -/
def selected_text_bounds_claim (el : UIFrameElement) :
    Option (F64 × F64 × F64 × F64) :=
  match el.a with
  | some attrs =>
    match List.lookup "AXSelectedTextBounds" attrs with
    | some bounds_str =>
      match (splitOnComma bounds_str.toList).mapM parseF64 with
      | some [x, y, w, h] => some (x, y, w, h)
      | _ => none
    | none => none
  | none => none

/-- Whether an optional filter string contains a NUL byte. -/
def optHasNulByte : Option String → Bool
  | none => false
  | some s => hasNulByte s

/-- Which native snapshot entry point serves a given pair of filters, and
its result: no filters use get_accessibility_hierarchy, any filter uses
get_accessibility_hierarchy_filtered with the given options. -/
def nativeResultFor (native : NativeHierarchyProvider) :
    Option String → Option String → Option String
  | none, none => native.unfiltered
  | a, w => native.filtered a w

/-- A text field whose bounds attribute carries an extra non-numeric
token, separating the implementation from the claimed parsing rule. -/
def c1Elem : UIFrameElement :=
  .mk none "AXTextField" none none none
    (some [("AXSelectedTextBounds", "1,2,3,4,x")]) none none none none

/-- The root of the scenario snapshot of claim C2: an AXButton with
selected-text bounds 5,5,100,20 owned by Notes. -/
def c2Root : UIFrameElement :=
  .mk none "AXButton" none none none
    (some [("AXSelectedTextBounds", "5,5,100,20")]) none none (some "Notes") none

/-- A root element owned by the hosting application itself. -/
def c4Self : UIFrameElement :=
  .mk none "AXWindow" none none none none none none (some "Alvea") none

/-- A provider that always returns the payload X, used to separate the
implementation from the claimed bridge contract at a NUL-carrying
filter. -/
def c7Provider : NativeHierarchyProvider := ⟨some "X", fun _ _ => some "X"⟩

theorem startsWithList_iff (pat hay : List Char) :
    startsWithList hay pat = true ↔ ∃ rest, hay = pat ++ rest := by
  induction pat generalizing hay with
  | nil => simp [startsWithList]
  | cons p ps ih =>
    cases hay with
    | nil => simp [startsWithList]
    | cons c cs =>
      simp [startsWithList, ih, List.cons_eq_cons, exists_and_left]

theorem containsSubstring_iff (pat hay : List Char) :
    containsSubstring hay pat = true ↔ ∃ pre post, hay = pre ++ pat ++ post := by
  induction hay with
  | nil =>
    cases pat <;> simp [containsSubstring, List.isEmpty]
  | cons c t ih =>
    rw [containsSubstring]
    simp only [Bool.or_eq_true, startsWithList_iff, ih]
    constructor
    · rintro (⟨rest, hr⟩ | ⟨pre, post, hp⟩)
      · exact ⟨[], rest, by simpa using hr⟩
      · exact ⟨c :: pre, post, by simp [hp]⟩
    · rintro ⟨pre, post, hp⟩
      cases pre with
      | nil => exact Or.inl ⟨post, by simpa using hp⟩
      | cons c0 pre0 =>
        simp only [List.cons_append, List.cons_eq_cons] at hp
        exact Or.inr ⟨pre0, post, hp.2⟩

theorem endsWithList_iff (pat hay : List Char) :
    endsWithList hay pat = true ↔ ∃ pre, hay = pre ++ pat := by
  rw [endsWithList, startsWithList_iff]
  constructor
  · rintro ⟨rest, hr⟩
    refine ⟨rest.reverse, ?_⟩
    have := congrArg List.reverse hr
    simpa using this
  · rintro ⟨pre, hp⟩
    exact ⟨pre.reverse, by simp [hp]⟩

/-- C1 (counterexample): the attribute value 1,2,3,4,x has a non-numeric
token, so the claim as stated requires None, yet the implementation
returns Some (1, 2, 3, 4) because non-parsing tokens are filtered out
rather than rejected (the claim-faithful parse of the same element is
None). -/
theorem C1_selected_text_bounds_counterexample :
    UIFrameElement.get_selected_text_bounds c1Elem =
      some (F64.finite 1, F64.finite 2, F64.finite 3, F64.finite 4) ∧
    selected_text_bounds_claim c1Elem = none := by
  constructor <;> decide

/-- C1 (amended): get_selected_text_bounds returns Some (x, y, w, h) iff
the attribute map is present, holds the key AXSelectedTextBounds, and
filtering the comma-separated tokens of its value down to those that
parse as floats leaves exactly the four values x, y, w, h in order;
tokens that fail to parse are skipped, and a missing key or a parsed
count other than four gives None. -/
theorem C1_selected_text_bounds_amended (el : UIFrameElement)
    (v : F64 × F64 × F64 × F64) :
    el.get_selected_text_bounds = some v ↔
    ∃ attrs bounds_str, el.a = some attrs ∧
      List.lookup "AXSelectedTextBounds" attrs = some bounds_str ∧
      (splitOnComma bounds_str.toList).filterMap parseF64 =
        [v.1, v.2.1, v.2.2.1, v.2.2.2] := by
  obtain ⟨x, y, w, h⟩ := v
  cases hA : el.a with
  | none => simp [UIFrameElement.get_selected_text_bounds, hA]
  | some attrs =>
    cases hL : List.lookup "AXSelectedTextBounds" attrs with
    | none => simp [UIFrameElement.get_selected_text_bounds, hA, hL]
    | some s =>
      rcases hP : (splitOnComma s.toList).filterMap parseF64 with
        _ | ⟨a, _ | ⟨b, _ | ⟨c, _ | ⟨d, _ | ⟨e2, rest⟩⟩⟩⟩⟩ <;>
      simp [UIFrameElement.get_selected_text_bounds, hA, hL, hP] <;>
      aesop

/-- C2: on the decoded scenario snapshot whose sole root is an AXButton
owned by Notes with bounds attribute 5,5,100,20, a tick is not
self-focused, collects exactly the root as its one input element, and
produces exactly one overlay candidate, labelled overlay_0_selection
with bounds (5, 5, 100, 20); this holds whatever context the previous
tick left. -/
theorem C2_snapshot_scenario (ctx : Option LastSelectionContext) :
    (scanRoots ctx [c2Root]).current_app_is_self = false ∧
    (scanRoots ctx [c2Root]).input_elements = [c2Root] ∧
    overlay_candidates (scanRoots ctx [c2Root]).input_elements =
      [("overlay_0_selection",
        (F64.finite 5, F64.finite 5, F64.finite 100, F64.finite 20))] := by
  have hself : c2Root.is_self_app = false := by decide
  have hcollect : collect_input_elements c2Root = [c2Root] := by
    rw [c2Root, collect_input_elements]
    simp [show is_input_element "AXButton" = true from by decide]
  have hscan : scanRoots ctx [c2Root] = ⟨false, some ⟨c2Root⟩, [c2Root]⟩ := by
    simp [scanRoots, hself, hcollect]
  rw [hscan]
  refine ⟨rfl, rfl, ?_⟩
  simp [overlay_candidates, List.enum,
    show c2Root.get_selected_text_bounds =
      some (F64.finite 5, F64.finite 5, F64.finite 100, F64.finite 20) from
      by decide,
    show overlayLabel 0 = "overlay_0_selection" from by decide]

/-- C3: is_input_element holds for a role string iff the role ends
(case-sensitively) with one of exactly the eight suffixes AXTextField,
AXTextArea, AXButton, AXCheckBox, AXRadioButton, AXSlider, AXComboBox,
AXPopUpButton — a suffix match, not an exact match. -/
theorem C3_is_input_element_suffix_iff (r : String) :
    is_input_element r = true ↔
    ∃ t ∈ ["AXTextField", "AXTextArea", "AXButton", "AXCheckBox",
           "AXRadioButton", "AXSlider", "AXComboBox", "AXPopUpButton"],
      ∃ pre, r.toList = pre ++ t.toList := by
  simp [is_input_element, input_types, List.any_eq_true, endsWithList_iff]

/-- C4: when the sole root of a tick satisfies is_self_app, the root scan
marks the tick self-focused, collects no input elements, and the full
tick leaves the selection-context cell (and the overlay label state)
exactly as it was, whether it held a context or not. -/
theorem C4_self_root_tick (ctx : Option LastSelectionContext)
    (r : UIFrameElement) (h : r.is_self_app = true) :
    scanRoots ctx [r] = ⟨true, ctx, []⟩ ∧
    ∀ labels, stepTick (some ⟨[r]⟩) ⟨ctx, labels⟩ = ⟨ctx, labels⟩ := by
  have hscan : scanRoots ctx [r] = ⟨true, ctx, []⟩ := by simp [scanRoots, h]
  exact ⟨hscan, fun labels => by simp [stepTick, hscan]⟩

/-- C4 witness: a concrete self-owned root (app Alvea) with an empty
previous context. -/
theorem C4_self_root_tick_witness :
    scanRoots none [c4Self] = ⟨true, none, []⟩ ∧
    ∀ labels, stepTick (some ⟨[c4Self]⟩) ⟨none, labels⟩ = ⟨none, labels⟩ :=
  C4_self_root_tick none c4Self (by decide)

/-- C5: a tick whose snapshot fails to decode changes nothing; when the
polling flag stays true the loop executes every iteration of its trace
(a failing tick never ends it); the loop can stop short of its trace
only because some iteration observed the flag false; and a false flag
observed at an iteration boundary stops the loop at once with the state
untouched. -/
theorem C5_polling_loop_robustness :
    (∀ s : LoopState, stepTick none s = s) ∧
    (∀ (envs : List TickEnv) (s : LoopState),
      (∀ env ∈ envs, env.polling_flag = true) →
      (runPolling s envs).2 = envs.length) ∧
    (∀ (envs : List TickEnv) (s : LoopState),
      (runPolling s envs).2 ≠ envs.length →
      ∃ env ∈ envs, env.polling_flag = false) ∧
    (∀ (env : TickEnv) (rest : List TickEnv) (s : LoopState),
      env.polling_flag = false → runPolling s (env :: rest) = (s, 0)) := by
  refine ⟨fun s => rfl, ?_, ?_, ?_⟩
  · intro envs
    induction envs with
    | nil => intro s _; rfl
    | cons env rest ih =>
      intro s h
      have hf : env.polling_flag = true := h env (by simp)
      simp [runPolling, hf, ih _ (fun e he => h e (by simp [he]))]
  · intro envs
    induction envs with
    | nil => intro s h; simp [runPolling] at h
    | cons env rest ih =>
      intro s h
      by_cases hf : env.polling_flag = true
      · rw [runPolling] at h
        simp only [hf, if_true] at h
        obtain ⟨e, he, hfe⟩ := ih _ (by simpa using h)
        exact ⟨e, by simp [he], hfe⟩
      · exact ⟨env, by simp, by simpa using hf⟩
  · intro env rest s hf
    simp [runPolling, hf]

/-- C5 witness: a no-op failing tick on the empty state, and a two-tick
trace with the flag held true (one decode failure, one empty snapshot)
that executes both ticks. -/
theorem C5_polling_loop_robustness_witness :
    stepTick none ⟨none, []⟩ = ⟨none, []⟩ ∧
    (runPolling ⟨none, []⟩ [⟨true, none⟩, ⟨true, some ⟨[]⟩⟩]).2 = 2 :=
  ⟨C5_polling_loop_robustness.1 ⟨none, []⟩,
   C5_polling_loop_robustness.2.1 [⟨true, none⟩, ⟨true, some ⟨[]⟩⟩] ⟨none, []⟩
     (by simp)⟩

/-- C6: perform_named_action (with NUL-free arguments, so that the native
call is reached) returns the error Failed to perform named action when
the native result is null; for a non-null result it returns Ok iff the
result text contains the success marker substring, and otherwise the
error carries the native message verbatim. -/
theorem C6_perform_named_action_result
    (native : String → String → Option String) (eid an : String)
    (h1 : hasNulByte eid = false) (h2 : hasNulByte an = false) :
    (native eid an = none →
      (perform_named_action native eid an).1 =
        Except.error "Failed to perform named action") ∧
    (∀ r, native eid an = some r →
      ((perform_named_action native eid an).1 = Except.ok () ↔
        containsSubstring r.toList ("success".toList) = true) ∧
      (containsSubstring r.toList ("success".toList) = false →
        (perform_named_action native eid an).1 = Except.error r)) := by
  constructor
  · intro hn; simp [perform_named_action, h1, h2, hn]
  · intro r hr
    constructor
    · by_cases hc : containsSubstring r.toList ("success".toList) = true <;>
        simp [perform_named_action, h1, h2, hr, hc]
    · intro hc
      simp only [String.toList] at hc
      simp [perform_named_action, h1, h2, hr, hc]

/-- C6 witness: the two scenario results of the claim — native result
action success gives Ok, native result action failed: not supported
gives that very message back as the error. -/
theorem C6_perform_named_action_result_witness :
    (perform_named_action (fun _ _ => some "action success")
        "el" "AXPress").1 = Except.ok () ∧
    (perform_named_action (fun _ _ => some "action failed: not supported")
        "el" "AXPress").1 = Except.error "action failed: not supported" :=
  ⟨((C6_perform_named_action_result (fun _ _ => some "action success")
      "el" "AXPress" (by decide) (by decide)).2
      "action success" rfl).1.mpr (by decide),
   ((C6_perform_named_action_result
      (fun _ _ => some "action failed: not supported")
      "el" "AXPress" (by decide) (by decide)).2
      "action failed: not supported" rfl).2 (by decide)⟩

/-- C7 (counterexample): with a provider that would answer the payload X,
an app filter containing a NUL byte makes the bridge return the
task-failure payload instead of the provider payload: CString::new
panics inside the blocking task, so the claim that the result is either
the hierarchy-error payload (null case) or the provider payload
verbatim fails on this filter pair. -/
theorem C7_snapshot_bridge_counterexample :
    c7Provider.filtered (some "a\x00") none = some "X" ∧
    get_accessibility_snapshot c7Provider (some "a\x00") none =
      taskFailurePayload ∧
    get_accessibility_snapshot c7Provider (some "a\x00") none ≠ "X" := by
  refine ⟨rfl, by simp [get_accessibility_snapshot,
    show hasNulByte "a\x00" = true from by decide], ?_⟩
  simp [get_accessibility_snapshot,
    show hasNulByte "a\x00" = true from by decide, taskFailurePayload]

/-- C7 (amended): for every pair of optional filters free of NUL bytes,
the bridge returns a string and never raises: the hierarchy-error
payload when the native call returns null, and the provider payload
verbatim otherwise; when a filter contains a NUL byte the provider is
not consulted and the bridge still returns a string, the task-failure
payload. -/
theorem C7_snapshot_bridge_amended :
    (∀ (native : NativeHierarchyProvider) (app window : Option String),
      optHasNulByte app = false → optHasNulByte window = false →
      get_accessibility_snapshot native app window =
        payloadOfNative (nativeResultFor native app window)) ∧
    (∀ (native : NativeHierarchyProvider) (app window : Option String),
      (optHasNulByte app || optHasNulByte window) = true →
      get_accessibility_snapshot native app window = taskFailurePayload) := by
  constructor
  · intro native app window h1 h2
    cases app <;> cases window <;>
      simp_all [optHasNulByte, get_accessibility_snapshot, nativeResultFor]
  · intro native app window h
    cases app <;> cases window <;>
      simp_all [optHasNulByte, get_accessibility_snapshot]

/-- C7 witness: a NUL-free filter pair passes the provider payload
through, and a NUL-carrying filter yields the task-failure payload. -/
theorem C7_snapshot_bridge_amended_witness :
    get_accessibility_snapshot ⟨some "P", fun _ _ => some "Q"⟩
      (some "app") none =
      payloadOfNative (nativeResultFor ⟨some "P", fun _ _ => some "Q"⟩
        (some "app") none) ∧
    get_accessibility_snapshot ⟨some "P", fun _ _ => some "Q"⟩
      (some "a\x00") none = taskFailurePayload :=
  ⟨C7_snapshot_bridge_amended.1 ⟨some "P", fun _ _ => some "Q"⟩
      (some "app") none (by decide) (by decide),
   C7_snapshot_bridge_amended.2 ⟨some "P", fun _ _ => some "Q"⟩
      (some "a\x00") none (by decide)⟩

/-- C8: is_self_app holds iff the owning application name is present and
its lowercase form contains the substring alvea (the hosting
application's lowercase name); an absent name gives false. -/
theorem C8_is_self_app_iff (el : UIFrameElement) :
    el.is_self_app = true ↔
    ∃ name, el.app = some name ∧
      ∃ pre post, rustToLowercase name = pre ++ "alvea".toList ++ post := by
  cases el with
  | mk id e p d f a m c app focused =>
    cases app with
    | none => simp [UIFrameElement.is_self_app, UIFrameElement.app]
    | some n =>
      simp [UIFrameElement.is_self_app, UIFrameElement.app,
        containsSubstring_iff]

/-- C9: with NUL-free arguments and a non-null native result,
perform_named_action succeeds exactly when the literal substring
success occurs anywhere in the result text (so a word such as
unsuccessful counts as success), and returns the text as the error
exactly when the substring is absent. -/
theorem C9_success_marker_substring
    (native : String → String → Option String) (eid an : String)
    (h1 : hasNulByte eid = false) (h2 : hasNulByte an = false) :
    ∀ r, native eid an = some r →
      ((perform_named_action native eid an).1 = Except.ok () ↔
        ∃ pre post, r.toList = pre ++ "success".toList ++ post) ∧
      ((¬ ∃ pre post, r.toList = pre ++ "success".toList ++ post) →
        (perform_named_action native eid an).1 = Except.error r) := by
  intro r hr
  have hiff := containsSubstring_iff ("success".toList) r.toList
  constructor
  · rw [← hiff]
    by_cases hc : containsSubstring r.toList ("success".toList) = true <;>
      simp [perform_named_action, h1, h2, hr, hc]
  · rw [← hiff]
    intro hc
    have hc2 : containsSubstring r.toList ("success".toList) = false := by
      simpa using hc
    simp only [String.toList] at hc2
    simp [perform_named_action, h1, h2, hr, hc2]

/-- C9 witness: the native result unsuccessful is reported as Ok, since
success occurs inside it. -/
theorem C9_success_marker_substring_witness :
    (perform_named_action (fun _ _ => some "unsuccessful")
        "el" "AXPress").1 = Except.ok () :=
  ((C9_success_marker_substring (fun _ _ => some "unsuccessful")
      "el" "AXPress" (by decide) (by decide)) "unsuccessful" rfl).1.mpr
    ⟨['u', 'n'], ['f', 'u', 'l'], by decide⟩

/-- C10: when the element id, the text, or the action name contains a NUL
byte, perform_typing_action and perform_named_action return the
C-string conversion error of the first offending argument and their
native-invocation trace is empty: the provider is never called. -/
theorem C10_nul_byte_arguments :
    (∀ (native : String → String → Option String) (eid text : String),
      (hasNulByte eid || hasNulByte text) = true →
      perform_typing_action native eid text =
        (Except.error (cstringNulError (if hasNulByte eid then eid else text)),
         [])) ∧
    (∀ (native : String → String → Option String) (eid an : String),
      (hasNulByte eid || hasNulByte an) = true →
      perform_named_action native eid an =
        (Except.error (cstringNulError (if hasNulByte eid then eid else an)),
         [])) := by
  constructor
  · intro native eid text h
    by_cases he : hasNulByte eid = true
    · simp [perform_typing_action, he]
    · have ht : hasNulByte text = true := by simpa [he] using h
      simp [perform_typing_action, he, ht]
  · intro native eid an h
    by_cases he : hasNulByte eid = true
    · simp [perform_named_action, he]
    · have ht : hasNulByte an = true := by simpa [he] using h
      simp [perform_named_action, he, ht]

/-- C10 witness: concrete NUL-carrying arguments for both commands, with
the resulting NulError text (position 1, counted in bytes). -/
theorem C10_nul_byte_arguments_witness :
    perform_typing_action (fun _ _ => some "ok") "a\x00b" "t" =
      (Except.error (cstringNulError
        (if hasNulByte "a\x00b" then "a\x00b" else "t")), []) ∧
    perform_named_action (fun _ _ => some "action success") "el" "AX\x00Press" =
      (Except.error (cstringNulError
        (if hasNulByte "el" then "el" else "AX\x00Press")), []) ∧
    cstringNulError "a\x00b" = "nul byte found in provided data at position: 1" :=
  ⟨C10_nul_byte_arguments.1 (fun _ _ => some "ok") "a\x00b" "t" (by decide),
   C10_nul_byte_arguments.2 (fun _ _ => some "action success") "el" "AX\x00Press"
     (by decide),
   by decide⟩
